import Mathlib

/-!
Verification development for conrod's rendering and input-routing core.

The Rust sources embedded here are `src/input/widget.rs` (per-widget input
filtering: `Widget::mouse`, `Widget::events`, `Events::next` and the derived
filter iterators) and `src/backend/graphics.rs` (`draw_from_graph`,
`crop_context`, `draw_lines`).

Conventions of the embedding:
* the Rust `f64` scalar type is modelled by `ℚ`; a Rust `f64 as i32` cast
  (truncation toward zero) is modelled by `ratTrunc`;
* Rust `u32` quantities (scissor rectangles) are modelled by `ℕ`, with the
  `as u32` cast of a clamped non-negative `i32` modelled by `Int.toNat`;
* iterators are modelled by a per-call step function together with the list
  of all items they yield until exhaustion;
* collaborators that live outside the embedded source files (the widget
  graph accessor, the geometry utilities, the input state and event payload
  types) are modelled from the specification; each such definition carries a
  doc comment saying so.
-/

namespace Conrod

/-! ### Geometry utilities -/

/-- A 2-D point (conrod `Point`, a pair of `Scalar`s). -/
abbrev Point := ℚ × ℚ

/-- Modelled from the spec: `utils::vec2_sub`, componentwise vector
subtraction used to make positions relative to a widget's center. -/
def vec2_sub (a b : Point) : Point := (a.1 - b.1, a.2 - b.2)

/-- Modelled from the spec: conrod `Rect`, an axis-aligned rectangle in
virtual (view-space) coordinates, stored by its left/right/bottom/top
edges; view space has its origin at the center with the y axis up. -/
structure Rect where
  l : ℚ
  r : ℚ
  b : ℚ
  t : ℚ
  deriving DecidableEq

/-- Center of a `Rect` (conrod `Rect::xy`). -/
def Rect.xy (rc : Rect) : Point := ((rc.l + rc.r) / 2, (rc.b + rc.t) / 2)

/-- Width of a `Rect`. -/
def Rect.w (rc : Rect) : ℚ := rc.r - rc.l

/-- Height of a `Rect`. -/
def Rect.h (rc : Rect) : ℚ := rc.t - rc.b

/-- Modelled from the spec: conrod `Rect::is_over`, the closed-bounds
point-in-rectangle test. -/
def Rect.is_over (rc : Rect) (p : Point) : Bool :=
  decide (rc.l ≤ p.1 ∧ p.1 ≤ rc.r ∧ rc.b ≤ p.2 ∧ p.2 ≤ rc.t)

/-- Modelled from the spec: conrod `Rect::overlap`, the axis-aligned
intersection of two rectangles, `none` when the intersection is empty. -/
def Rect.overlap (a b : Rect) : Option Rect :=
  let l := max a.l b.l
  let r := min a.r b.r
  let bo := max a.b b.b
  let t := min a.t b.t
  if l < r ∧ bo < t then some ⟨l, r, bo, t⟩ else none

/-! ### Event payloads

The payload types live in conrod's `event` module, outside the embedded
sources; they are modelled from the spec: positional payloads
(press/release/click/double-click/drag endpoints) carry points that the
router translates with `relative_to`; text, move and scroll payloads are
passed through unmodified. Pointing-device buttons are modelled by a
numeric identifier. -/

/-- Modelled from the spec: payload of a press or release event — a button
identifier and a position in global coordinates. -/
structure PressP where
  button : ℕ
  xy : Point
  deriving DecidableEq

/-- Translate a press/release payload relative to the given point. -/
def PressP.relative_to (p : PressP) (xy : Point) : PressP :=
  { p with xy := vec2_sub p.xy xy }

/-- Modelled from the spec: payload of a click or double-click event. -/
structure ClickP where
  button : ℕ
  xy : Point
  deriving DecidableEq

/-- Translate a click payload relative to the given point. -/
def ClickP.relative_to (p : ClickP) (xy : Point) : ClickP :=
  { p with xy := vec2_sub p.xy xy }

/-- Modelled from the spec: payload of a drag event — both endpoints are
positional and both are translated on delivery. -/
structure DragP where
  button : ℕ
  origin : Point
  to_xy : Point
  deriving DecidableEq

/-- Translate both endpoints of a drag payload relative to the given point. -/
def DragP.relative_to (p : DragP) (xy : Point) : DragP :=
  { p with origin := vec2_sub p.origin xy, to_xy := vec2_sub p.to_xy xy }

/-- Modelled from the spec: payload of a scroll event, passed through
unmodified by the router. -/
structure ScrollP where
  x : ℚ
  y : ℚ
  deriving DecidableEq

/-- Modelled from the spec: payload of a pointer-move event, passed through
unmodified by the router. -/
structure MoveP where
  motion : ℚ × ℚ
  deriving DecidableEq

/-- A global UI event (`event::Ui`): capture/uncapture notifications,
window resize, and per-widget-targeted variants carrying an optional
target widget index. Widget indices are modelled by `ℕ`. -/
inductive UiEvent where
  | widgetCapturesMouse (idx : ℕ)
  | widgetUncapturesMouse (idx : ℕ)
  | widgetCapturesKeyboard (idx : ℕ)
  | widgetUncapturesKeyboard (idx : ℕ)
  | windowResized (dim : ℚ × ℚ)
  | text (target : Option ℕ) (payload : String)
  | move (target : Option ℕ) (payload : MoveP)
  | press (target : Option ℕ) (payload : PressP)
  | release (target : Option ℕ) (payload : PressP)
  | click (target : Option ℕ) (payload : ClickP)
  | doubleClick (target : Option ℕ) (payload : ClickP)
  | drag (target : Option ℕ) (payload : DragP)
  | scroll (target : Option ℕ) (payload : ScrollP)
  deriving DecidableEq

/-- A per-widget event (`event::Widget`): the projection of `UiEvent`
delivered to one widget, with capture notifications replaced by boolean
signals and positional payloads already translated. -/
inductive WidgetEvent where
  | capturesMouse
  | uncapturesMouse
  | capturesKeyboard
  | uncapturesKeyboard
  | windowResized (dim : ℚ × ℚ)
  | text (payload : String)
  | move (payload : MoveP)
  | press (payload : PressP)
  | release (payload : PressP)
  | click (payload : ClickP)
  | doubleClick (payload : ClickP)
  | drag (payload : DragP)
  | scroll (payload : ScrollP)
  deriving DecidableEq

/-! ### The `Events` iterator (`Events::next` in `src/input/widget.rs`)

The iterator state is the remaining event stream together with the two
capture-tracking variables `capturing_mouse` and `capturing_keyboard`
(initialised from the start-of-frame capture state) plus the fixed target
index and rectangle. `eventsNext` is one call of `Events::next`;
`eventsList` is the full sequence the iterator yields until exhaustion. -/

/-- One call of `Events::next`: scan the stream until an event relevant to
the widget is found, updating the capture-tracking variables along the
way; returns the yielded widget event and the successor state, or `none`
at exhaustion. -/
def eventsNext : List UiEvent → Option ℕ → Option ℕ → ℕ → Rect →
    Option (WidgetEvent × List UiEvent × Option ℕ × Option ℕ)
  | [], _, _, _, _ => none
  | .widgetCapturesMouse i :: tl, _, ck, idx, rect =>
    if i = idx then some (.capturesMouse, tl, some i, ck)
    else eventsNext tl (some i) ck idx rect
  | .widgetUncapturesMouse i :: tl, cm, ck, idx, rect =>
    let cm2 := if some i = cm then none else cm
    if i = idx then some (.uncapturesMouse, tl, cm2, ck)
    else eventsNext tl cm2 ck idx rect
  | .widgetCapturesKeyboard i :: tl, cm, _, idx, rect =>
    if i = idx then some (.capturesKeyboard, tl, cm, some i)
    else eventsNext tl cm (some i) idx rect
  | .widgetUncapturesKeyboard i :: tl, cm, ck, idx, rect =>
    let ck2 := if some i = ck then none else ck
    if i = idx then some (.uncapturesKeyboard, tl, cm, ck2)
    else eventsNext tl cm ck2 idx rect
  | .windowResized d :: tl, cm, ck, _, _ =>
    some (.windowResized d, tl, cm, ck)
  | .text tgt p :: tl, cm, ck, idx, rect =>
    if tgt = some idx then some (.text p, tl, cm, ck)
    else eventsNext tl cm ck idx rect
  | .move tgt p :: tl, cm, ck, idx, rect =>
    if tgt = some idx then some (.move p, tl, cm, ck)
    else eventsNext tl cm ck idx rect
  | .press tgt p :: tl, cm, ck, idx, rect =>
    if tgt = some idx then some (.press (p.relative_to rect.xy), tl, cm, ck)
    else eventsNext tl cm ck idx rect
  | .release tgt p :: tl, cm, ck, idx, rect =>
    if tgt = some idx then some (.release (p.relative_to rect.xy), tl, cm, ck)
    else eventsNext tl cm ck idx rect
  | .click tgt p :: tl, cm, ck, idx, rect =>
    if tgt = some idx then some (.click (p.relative_to rect.xy), tl, cm, ck)
    else eventsNext tl cm ck idx rect
  | .doubleClick tgt p :: tl, cm, ck, idx, rect =>
    if tgt = some idx then some (.doubleClick (p.relative_to rect.xy), tl, cm, ck)
    else eventsNext tl cm ck idx rect
  | .drag tgt p :: tl, cm, ck, idx, rect =>
    if tgt = some idx then some (.drag (p.relative_to rect.xy), tl, cm, ck)
    else eventsNext tl cm ck idx rect
  | .scroll tgt p :: tl, cm, ck, idx, rect =>
    if tgt = some idx then some (.scroll p, tl, cm, ck)
    else eventsNext tl cm ck idx rect

/-- The full sequence of widget events the `Events` iterator yields when
driven to exhaustion, starting from the given stream and capture-tracking
state. -/
def eventsList : List UiEvent → Option ℕ → Option ℕ → ℕ → Rect → List WidgetEvent
  | [], _, _, _, _ => []
  | .widgetCapturesMouse i :: tl, _, ck, idx, rect =>
    if i = idx then .capturesMouse :: eventsList tl (some i) ck idx rect
    else eventsList tl (some i) ck idx rect
  | .widgetUncapturesMouse i :: tl, cm, ck, idx, rect =>
    let cm2 := if some i = cm then none else cm
    if i = idx then .uncapturesMouse :: eventsList tl cm2 ck idx rect
    else eventsList tl cm2 ck idx rect
  | .widgetCapturesKeyboard i :: tl, cm, _, idx, rect =>
    if i = idx then .capturesKeyboard :: eventsList tl cm (some i) idx rect
    else eventsList tl cm (some i) idx rect
  | .widgetUncapturesKeyboard i :: tl, cm, ck, idx, rect =>
    let ck2 := if some i = ck then none else ck
    if i = idx then .uncapturesKeyboard :: eventsList tl cm ck2 idx rect
    else eventsList tl cm ck2 idx rect
  | .windowResized d :: tl, cm, ck, idx, rect =>
    .windowResized d :: eventsList tl cm ck idx rect
  | .text tgt p :: tl, cm, ck, idx, rect =>
    if tgt = some idx then .text p :: eventsList tl cm ck idx rect
    else eventsList tl cm ck idx rect
  | .move tgt p :: tl, cm, ck, idx, rect =>
    if tgt = some idx then .move p :: eventsList tl cm ck idx rect
    else eventsList tl cm ck idx rect
  | .press tgt p :: tl, cm, ck, idx, rect =>
    if tgt = some idx then .press (p.relative_to rect.xy) :: eventsList tl cm ck idx rect
    else eventsList tl cm ck idx rect
  | .release tgt p :: tl, cm, ck, idx, rect =>
    if tgt = some idx then .release (p.relative_to rect.xy) :: eventsList tl cm ck idx rect
    else eventsList tl cm ck idx rect
  | .click tgt p :: tl, cm, ck, idx, rect =>
    if tgt = some idx then .click (p.relative_to rect.xy) :: eventsList tl cm ck idx rect
    else eventsList tl cm ck idx rect
  | .doubleClick tgt p :: tl, cm, ck, idx, rect =>
    if tgt = some idx then .doubleClick (p.relative_to rect.xy) :: eventsList tl cm ck idx rect
    else eventsList tl cm ck idx rect
  | .drag tgt p :: tl, cm, ck, idx, rect =>
    if tgt = some idx then .drag (p.relative_to rect.xy) :: eventsList tl cm ck idx rect
    else eventsList tl cm ck idx rect
  | .scroll tgt p :: tl, cm, ck, idx, rect =>
    if tgt = some idx then .scroll p :: eventsList tl cm ck idx rect
    else eventsList tl cm ck idx rect

/-- `eventsList` is exactly the run of the iterator: it is empty when
`eventsNext` reports exhaustion, and otherwise consists of the yielded
event followed by the run from the successor state. -/
theorem eventsList_run (s : List UiEvent) (cm ck : Option ℕ) (idx : ℕ) (rect : Rect) :
    eventsList s cm ck idx rect =
      match eventsNext s cm ck idx rect with
      | none => []
      | some (ev, s2, cm2, ck2) => ev :: eventsList s2 cm2 ck2 idx rect := by
  induction s generalizing cm ck with
  | nil => simp [eventsList, eventsNext]
  | cons e tl ih =>
    cases e <;> simp only [eventsList, eventsNext] <;> (try split_ifs) <;> simp [ih]

/-- The per-event delivery decision, written from the specification's
wording: capture and targeted events are delivered exactly when the
carried index equals the widget's index; window resizes are always
delivered; positional payloads are translated by subtracting the widget
rectangle's center; text, move and scroll payloads pass through. -/
def event_delivery (idx : ℕ) (rect : Rect) : UiEvent → Option WidgetEvent
  | .widgetCapturesMouse i => if i = idx then some .capturesMouse else none
  | .widgetUncapturesMouse i => if i = idx then some .uncapturesMouse else none
  | .widgetCapturesKeyboard i => if i = idx then some .capturesKeyboard else none
  | .widgetUncapturesKeyboard i => if i = idx then some .uncapturesKeyboard else none
  | .windowResized d => some (.windowResized d)
  | .text tgt p => if tgt = some idx then some (.text p) else none
  | .move tgt p => if tgt = some idx then some (.move p) else none
  | .press tgt p => if tgt = some idx then some (.press (p.relative_to rect.xy)) else none
  | .release tgt p => if tgt = some idx then some (.release (p.relative_to rect.xy)) else none
  | .click tgt p => if tgt = some idx then some (.click (p.relative_to rect.xy)) else none
  | .doubleClick tgt p => if tgt = some idx then some (.doubleClick (p.relative_to rect.xy)) else none
  | .drag tgt p => if tgt = some idx then some (.drag (p.relative_to rect.xy)) else none
  | .scroll tgt p => if tgt = some idx then some (.scroll p) else none

/-- The iterator's full output is the stream filtered by the pure per-event
delivery decision; in particular it never depends on the capture-tracking
variables. -/
theorem eventsList_eq_filterMap (s : List UiEvent) (cm ck : Option ℕ) (idx : ℕ) (rect : Rect) :
    eventsList s cm ck idx rect = s.filterMap (event_delivery idx rect) := by
  induction s generalizing cm ck with
  | nil => simp [eventsList]
  | cons e tl ih =>
    cases e <;> simp only [eventsList, event_delivery, List.filterMap_cons] <;>
      (try split_ifs) <;> simp [ih]

/-! ### Global input state and the per-widget `Widget` view
(`src/input/widget.rs`) -/

/-- Modelled from the spec: the per-button down/up state of the mouse
(`input::state::mouse::ButtonMap`), indexed by button identifier. -/
abbrev ButtonMap := ℕ → Bool

/-- Modelled from the spec: one `input::State` snapshot — the mouse's
absolute position and button map plus the two optional capture indices. -/
structure InputState where
  mouse_xy : Point
  mouse_buttons : ButtonMap
  widget_capturing_mouse : Option ℕ
  widget_capturing_keyboard : Option ℕ

/-- Modelled from the spec: `input::Global` — the frame's captured UI event
stream together with the start-of-frame and current input states. -/
structure Global where
  events : List UiEvent
  start : InputState
  current : InputState

/-- The widget-specific mouse view (`input::widget::Mouse`). -/
structure WMouse where
  rect : Rect
  mouse_abs_xy : Point
  buttons : ButtonMap

/-- `Mouse::abs_xy`: the absolute position of the mouse within the window. -/
def WMouse.abs_xy (m : WMouse) : Point := m.mouse_abs_xy

/-- `Mouse::rel_xy`: the position of the mouse relative to the middle of
the widget's `Rect`. -/
def WMouse.rel_xy (m : WMouse) : Point := vec2_sub m.mouse_abs_xy m.rect.xy

/-- `Mouse::is_over`: is the mouse currently over the widget. -/
def WMouse.is_over (m : WMouse) : Bool := m.rect.is_over m.mouse_abs_xy

/-- `Widget::mouse`: returns the mouse view when
`global.current.widget_capturing_mouse == Some(idx)`, `None` otherwise. -/
def Widget.mouse (idx : ℕ) (rect : Rect) (g : Global) : Option WMouse :=
  if g.current.widget_capturing_mouse = some idx then
    some { rect := rect
           mouse_abs_xy := g.current.mouse_xy
           buttons := g.current.mouse_buttons }
  else none

/-- `Widget::events`: the `Events` iterator for the widget, initialised
with the frame's stream and the start-of-frame capture state; here
rendered as the full yielded sequence. -/
def Widget.eventsOut (idx : ℕ) (rect : Rect) (g : Global) : List WidgetEvent :=
  eventsList g.events g.start.widget_capturing_mouse g.start.widget_capturing_keyboard idx rect

/-! ### Numeric casts -/

/-- Truncation of a rational toward zero, the behaviour of Rust's
`f64 as i32` cast (and of the numeric cast performed by
`utils::map_range` on its result). -/
def ratTrunc (q : ℚ) : ℤ :=
  if 0 ≤ q.num then ((q.num.toNat / q.den : ℕ) : ℤ)
  else -(((-q.num).toNat / q.den : ℕ) : ℤ)

/-- Modelled from the spec: `utils::map_range`, linear remapping of `val`
from the range `in_min..in_max` to the range `out_min..out_max`, the
integer result obtained by truncation toward zero. -/
def map_range (val in_min in_max : ℚ) (out_min out_max : ℤ) : ℤ :=
  ratTrunc ((val - in_min) / (in_max - in_min) * (((out_max : ℚ)) - ((out_min : ℚ))) + ((out_min : ℚ)))

/-! ### The clip-region compositor (`crop_context` in
`src/backend/graphics.rs`) -/

/-- A device-space scissor rectangle (`[u32; 4]` in the `DrawState`):
top-left-style origin position plus width and height in pixels. -/
structure Scissor where
  x : ℕ
  y : ℕ
  w : ℕ
  h : ℕ
  deriving DecidableEq

/-- The draw state carried by a render context; only the scissor matters
to the embedded code. -/
structure DrawState where
  scissor : Option Scissor
  deriving DecidableEq

/-- The render context (piston `Context`), reduced to the fields the
embedded code reads: the virtual view size (`get_view_size`), the
optional viewport's draw size in pixels, and the draw state. -/
structure Context where
  view_size : ℚ × ℚ
  viewport : Option (ℚ × ℚ)
  draw_state : DrawState
  deriving DecidableEq

/-- The actual draw size in pixels: the viewport's draw size when a
viewport is present, otherwise the view size (`crop_context` lines
112-115). -/
def Context.draw_dim (c : Context) : ℚ × ℚ := c.viewport.getD c.view_size

/-- The mapped device-space x coordinate of the crop area's top-left
corner: `map_range(left_x, left, right, 0, draw_dim[0] as i32)` where
`left_x = x - w / 2` (`crop_context` lines 117-129). -/
def mapped_x (c : Context) (rect : Rect) : ℤ :=
  map_range (rect.xy.1 - rect.w / 2) (-(c.view_size.1) / 2) (c.view_size.1 / 2)
    0 (ratTrunc (c.draw_dim).1)

/-- The mapped device-space y coordinate:
`map_range(top_y, bottom, top, 0, draw_dim[1] as i32)` where
`top_y = y - h / 2` (`crop_context` lines 117-130). -/
def mapped_y (c : Context) (rect : Rect) : ℤ :=
  map_range (rect.xy.2 - rect.h / 2) (-(c.view_size.2) / 2) (c.view_size.2 / 2)
    0 (ratTrunc (c.draw_dim).2)

/-- The crop width scaled from view to draw dimensions and then truncated
by the `w as i32` cast: `w * (draw_dim[0] / view_dim[0])`
(`crop_context` lines 132-136 and 146). -/
def mapped_w (c : Context) (rect : Rect) : ℤ :=
  ratTrunc (rect.w * ((c.draw_dim).1 / c.view_size.1))

/-- The crop height scaled from view to draw dimensions and truncated
(`crop_context` lines 132-137 and 147). -/
def mapped_h (c : Context) (rect : Rect) : ℤ :=
  ratTrunc (rect.h * ((c.draw_dim).2 / c.view_size.2))

/-- The negative-coordinate clamping step (`crop_context` lines 138-147):
clamp a negative top-left coordinate to zero, compensate the dimension by
the lost amount (`x_neg`, `y_neg`), and clamp a negative dimension to
zero before the `as u32` casts. -/
def clamped_scissor (xi yi wi hi : ℤ) : Scissor :=
  let x_neg := if xi < 0 then xi else 0
  let y_neg := if yi < 0 then yi else 0
  { x := (max 0 xi).toNat
    y := (max 0 yi).toNat
    w := (max 0 (wi + x_neg)).toNat
    h := (max 0 (hi + y_neg)).toNat }

/-- The candidate scissor for a context and target rectangle: mapping to
device space followed by the clamping step, before any intersection with
an existing scissor. -/
def crop_quad (c : Context) (rect : Rect) : Scissor :=
  clamped_scissor (mapped_x c rect) (mapped_y c rect) (mapped_w c rect) (mapped_h c rect)

/-- The intersection step of `crop_context` (lines 149-169): when the
candidate and the existing scissor are disjoint the width and height are
zeroed; otherwise the overlapping rectangle is computed. -/
def scissor_intersect (a b : Scissor) : Scissor :=
  if a.x + a.w < b.x ∨ b.x + b.w < a.x ∨ a.y + a.h < b.y ∨ b.y + b.h < a.y then
    { a with w := 0, h := 0 }
  else
    let l := if a.x > b.x then a.x else b.x
    let r := if a.x + a.w < b.x + b.w then a.x + a.w else b.x + b.w
    let bo := if a.y > b.y then a.y else b.y
    let t := if a.y + a.h < b.y + b.h then a.y + a.h else b.y + b.h
    { x := l, y := bo, w := r - l, h := t - bo }

/-- `crop_context`: crop the given context to the given rectangle — map
the rectangle into device space, clamp, intersect with any existing
scissor, and store the result as the context's scissor. -/
def crop_context (c : Context) (rect : Rect) : Context :=
  let q := crop_quad c rect
  let s :=
    match c.draw_state.scissor with
    | some prev => scissor_intersect q prev
    | none => q
  { c with draw_state := { scissor := some s } }

/-! ### The draw traversal (`draw_from_graph` in
`src/backend/graphics.rs`) -/

/-- A widget node's container (`graph::Container`), reduced to the fields
the traversal reads: its rectangle, the crop flag, the kid-area rectangle
used when cropping, and the `kind` discriminator. -/
structure Container where
  rect : Rect
  crop_kids : Bool
  kid_area : Rect
  kind : ℕ

/-- Modelled from the spec: the widget-graph accessor capability — node
lookup, the recursive depth-edge (ancestor) query
`does_recursive_depth_edge_exist`, and the crop-aware visible-area query
`graph::algo::cropped_area_of_widget`. -/
structure Graph where
  widget : ℕ → Option Container
  does_recursive_depth_edge_exist : ℕ → ℕ → Bool
  cropped_area_of_widget : ℕ → Option Rect

/-- The visibility test closure in `draw_from_graph` (lines 57-60): the
widget's rectangle overlaps the window's rectangle and the crop-aware
visible-area query reports a non-empty region. -/
def is_visible (g : Graph) (window : Container) (idx : ℕ) (container : Container) : Bool :=
  (container.rect.overlap window.rect).isSome && (g.cropped_area_of_widget idx).isSome

/-- The pop phase of the traversal (lines 69-75): while the stack is
non-empty and the top entry's owner is not a recursive ancestor of `idx`,
pop. The head of the list is the top of the stack. -/
def popWhile (g : Graph) (idx : ℕ) : List (ℕ × Context) → List (ℕ × Context)
  | [] => []
  | (p, c) :: rest =>
    if g.does_recursive_depth_edge_exist p idx then (p, c) :: rest
    else popWhile g idx rest

/-- Traversal accumulator: the crop-context stack, the record of draw
dispatches `(widget index, context used)`, and the record of clip-context
pushes `(owner index, pushed context)`. -/
structure DrawAcc where
  stack : List (ℕ × Context)
  draws : List (ℕ × Context)
  pushes : List (ℕ × Context)

/-- The body of the depth-order loop in `draw_from_graph` (lines 63-92):
skip absent nodes; pop stale crop contexts; take the active context from
the top of the stack (or the base context); dispatch the draw when the
widget is visible; push a new cropped context when the widget crops its
children. -/
def draw_step (g : Graph) (window : Container) (base : Context) (acc : DrawAcc) (idx : ℕ) :
    DrawAcc :=
  match g.widget idx with
  | none => acc
  | some container =>
    let st1 := popWhile g idx acc.stack
    let context := (st1.head?.map Prod.snd).getD base
    let draws :=
      if is_visible g window idx container then acc.draws ++ [(idx, context)] else acc.draws
    if container.crop_kids then
      let pushed := crop_context context container.kid_area
      { stack := (idx, pushed) :: st1, draws := draws, pushes := acc.pushes ++ [(idx, pushed)] }
    else
      { stack := st1, draws := draws, pushes := acc.pushes }

/-- `draw_from_graph`: locate the window node at index 0 — bailing out
with nothing drawn and nothing pushed when it is absent — then walk the
depth order with `draw_step`. -/
def draw_from_graph (base : Context) (g : Graph) (depth_order : List ℕ) : DrawAcc :=
  match g.widget 0 with
  | none => ⟨[], [], []⟩
  | some window => depth_order.foldl (draw_step g window base) ⟨[], [], []⟩

/-- The crop-context stack in effect while the widget `i` is being
visited: the stack left by processing the depth-order items before `i`,
after the pop phase for `i` has run. -/
def stack_at (g : Graph) (window : Container) (base : Context) (pre : List ℕ) (i : ℕ) :
    List (ℕ × Context) :=
  popWhile g i ((pre.foldl (draw_step g window base) ⟨[], [], []⟩).stack)

/-! ### Line drawing (`draw_lines` in `src/backend/graphics.rs`) -/

/-- A line pattern (`widget::primitive::line::Pattern`). -/
inductive Pattern where
  | solid
  | dashed
  | dotted
  deriving DecidableEq

/-- A line cap style (`widget::primitive::line::Cap`). -/
inductive Cap where
  | flat
  | round
  deriving DecidableEq

/-- Modelled from the spec: a line style with builder-style optional
overrides (`widget::primitive::line::Style`). -/
structure LineStyleS where
  maybe_pattern : Option Pattern
  maybe_color : Option ℕ
  maybe_thickness : Option ℚ
  maybe_cap : Option Cap

/-- Modelled from the spec: the theme's default line attributes. -/
structure ThemeS where
  line_pattern : Pattern
  line_color : ℕ
  line_thickness : ℚ
  line_cap : Cap

/-- Modelled from the spec: `Style::get_pattern`, resolving the explicit
override against the theme default. -/
def get_pattern (s : LineStyleS) (t : ThemeS) : Pattern :=
  s.maybe_pattern.getD t.line_pattern

/-- The outcome of a `draw_lines` call: either a normal return having
drawn the given segments (possibly none), or the hard
`unimplemented!()` abort. -/
inductive LinesOut where
  | drawn (segments : List (Point × Point))
  | panicked
  deriving DecidableEq

/-- The segments drawn by the `Pattern::Solid` arm: one segment per
consecutive pair of points. -/
def solid_segments : Point → List Point → List (Point × Point)
  | _, [] => []
  | start, e :: tl => (start, e) :: solid_segments e tl

/-- `draw_lines` (lines 367-399): with no points, return silently; with at
least one point, resolve the pattern — `Solid` draws the consecutive
segments, while `Dashed` and `Dotted` hit `unimplemented!()`. -/
def draw_lines (theme : ThemeS) (points : List Point) (style : LineStyleS) : LinesOut :=
  match points with
  | [] => .drawn []
  | first :: rest =>
    match get_pattern style theme with
    | .solid => .drawn (solid_segments first rest)
    | .dashed => .panicked
    | .dotted => .panicked

/-! ### Concrete fixtures used by witnesses and counterexamples -/

/-- A concrete rectangle: center at the origin, 2 wide and 2 tall. -/
def rect0W : Rect := ⟨-1, 1, -1, 1⟩

/-- A concrete base render context: a 4×4 view, no viewport, no scissor. -/
def base0 : Context := ⟨(4, 4), none, ⟨none⟩⟩

/-- A concrete everywhere-up button map. -/
def noButtons : ButtonMap := fun _ => false

/-! ### Claim C4 -/

/-- Claim C4: `events(w)` yields a targeted event (text, move, press,
release, click, double-click, drag, scroll) exactly when the event's
carried target index equals the widget's index; press, release, click,
double-click and drag payloads are translated by subtracting the center
of the widget's rectangle, text, move and scroll payloads pass through;
non-matching events are skipped, order is the stream order, and the
sequence terminates exactly at stream exhaustion — all captured by the
equation with `filterMap` over the pure per-event delivery decision. -/
theorem events_targeted_delivery (g : Global) (idx : ℕ) (rect : Rect) :
    Widget.eventsOut idx rect g = g.events.filterMap (event_delivery idx rect) :=
  eventsList_eq_filterMap g.events g.start.widget_capturing_mouse
    g.start.widget_capturing_keyboard idx rect

/-! ### Claim C5 -/

/-- Claim C5 (two-run noninterference): two `Events` iterators over the
same stream, widget index and rectangle but constructed with different
start-of-frame capture states yield exactly the same sequence of widget
events — the capture-tracking variables never influence delivery. -/
theorem events_capture_noninterference (s : List UiEvent) (idx : ℕ) (rect : Rect)
    (cm ck cm2 ck2 : Option ℕ) :
    eventsList s cm ck idx rect = eventsList s cm2 ck2 idx rect := by
  rw [eventsList_eq_filterMap, eventsList_eq_filterMap]

/-! ### Claim C8 -/

/-- Claim C8: the intersection step of the clip-region compositor is
idempotent — intersecting a scissor with itself yields the same scissor. -/
theorem scissor_intersect_idempotent (s : Scissor) : scissor_intersect s s = s := by
  rcases s with ⟨x, y, w, h⟩
  simp only [scissor_intersect, Scissor.mk.injEq]
  split_ifs <;> simp_all

/-! ### Claim C9 -/

/-- A concrete theme whose line defaults are solid. -/
def themeW : ThemeS := ⟨.solid, 0, 1, .flat⟩

/-- A concrete line style explicitly requesting the dashed pattern. -/
def styleDashed : LineStyleS := ⟨some .dashed, none, none, none⟩

/-- Claim C9 as stated is false: dispatching `draw_lines` with a style
whose pattern resolves to `Dashed` but with an empty point sequence
returns silently (drawing nothing) instead of aborting. -/
theorem draw_lines_empty_cex :
    get_pattern styleDashed themeW = .dashed ∧
    draw_lines themeW [] styleDashed = .drawn [] ∧
    LinesOut.drawn [] ≠ LinesOut.panicked :=
  ⟨rfl, rfl, by decide⟩

/-- Claim C9 (amended): whenever line drawing is dispatched with at least
one point and a line style whose pattern resolves to `Dashed` or
`Dotted`, `draw_lines` performs the hard `unimplemented!()` abort rather
than silently drawing nothing. -/
theorem draw_lines_unimplemented_abort (theme : ThemeS) (points : List Point)
    (style : LineStyleS) (hp : points ≠ [])
    (hpat : get_pattern style theme = .dashed ∨ get_pattern style theme = .dotted) :
    draw_lines theme points style = .panicked := by
  cases points with
  | nil => exact absurd rfl hp
  | cons first rest =>
    rcases hpat with h | h <;> simp [draw_lines, h]

/-- Witness for the amended claim C9 at a concrete dispatch. -/
theorem draw_lines_unimplemented_abort_witness :
    draw_lines themeW [(0, 0), (1, 1)] styleDashed = .panicked :=
  draw_lines_unimplemented_abort themeW [(0, 0), (1, 1)] styleDashed (by simp) (Or.inl rfl)

/-! ### Claim C10 -/

/-- A concrete graph with no nodes at all. -/
def gEmpty : Graph := ⟨fun _ => none, fun _ _ => false, fun _ => none⟩

/-- Claim C10: if the widget graph has no node at index 0, the draw
traversal returns immediately — for every depth order and context no draw
is dispatched, no clip context is pushed, and the stack stays empty. -/
theorem draw_from_graph_missing_root (base : Context) (g : Graph) (depth_order : List ℕ)
    (h : g.widget 0 = none) :
    (draw_from_graph base g depth_order).draws = [] ∧
    (draw_from_graph base g depth_order).pushes = [] ∧
    (draw_from_graph base g depth_order).stack = [] := by
  unfold draw_from_graph
  rw [h]
  exact ⟨rfl, rfl, rfl⟩

/-- Witness for claim C10 at a concrete empty graph and depth order. -/
theorem draw_from_graph_missing_root_witness :
    (draw_from_graph base0 gEmpty [0, 1, 2]).draws = [] ∧
    (draw_from_graph base0 gEmpty [0, 1, 2]).pushes = [] ∧
    (draw_from_graph base0 gEmpty [0, 1, 2]).stack = [] :=
  draw_from_graph_missing_root base0 gEmpty [0, 1, 2] rfl

/-! ### Claim C1 -/

/-- A concrete global input state whose start-of-frame capture state
records widget 1 as capturing the mouse while the current capture state
records no mouse capture. -/
def gStartOnly : Global :=
  { events := []
    start := ⟨(0, 0), noButtons, some 1, none⟩
    current := ⟨(0, 0), noButtons, none, none⟩ }

/-- Claim C1 as stated is false: with the start-of-frame capture state
recording widget 1 as capturing the mouse but the current capture state
empty, `Widget::mouse` returns `None` — the accessor gates on the current
capture state, not the start-of-frame one. -/
theorem mouse_start_capture_cex :
    gStartOnly.start.widget_capturing_mouse = some 1 ∧
    Widget.mouse 1 rect0W gStartOnly = none :=
  ⟨rfl, rfl⟩

/-- Claim C1 (amended): `Widget::mouse` returns a view exactly when the
**current** capture state records the widget as capturing the mouse; the
view's relative position is the absolute mouse position minus the center
of the widget's rectangle, and its is-over test holds exactly when the
absolute position lies within the rectangle (closed bounds). -/
theorem mouse_view_characterisation (idx : ℕ) (rect : Rect) (g : Global) :
    (g.current.widget_capturing_mouse = some idx →
      ∃ m, Widget.mouse idx rect g = some m ∧
        m.abs_xy = g.current.mouse_xy ∧
        m.rel_xy = vec2_sub g.current.mouse_xy rect.xy ∧
        (m.is_over = true ↔
          (rect.l ≤ g.current.mouse_xy.1 ∧ g.current.mouse_xy.1 ≤ rect.r ∧
           rect.b ≤ g.current.mouse_xy.2 ∧ g.current.mouse_xy.2 ≤ rect.t)) ∧
        m.buttons = g.current.mouse_buttons) ∧
    (g.current.widget_capturing_mouse ≠ some idx → Widget.mouse idx rect g = none) := by
  constructor
  · intro h
    refine ⟨⟨rect, g.current.mouse_xy, g.current.mouse_buttons⟩, ?_, rfl, rfl, ?_, rfl⟩
    · simp [Widget.mouse, h]
    · simp [WMouse.is_over, Rect.is_over]
  · intro h
    simp [Widget.mouse, h]

/-- A concrete global input state whose current capture state records
widget 1 as capturing the mouse at position (1, 1). -/
def gCurrent : Global :=
  { events := []
    start := ⟨(0, 0), noButtons, none, none⟩
    current := ⟨(1, 1), noButtons, some 1, none⟩ }

/-- Witness for the amended claim C1: at a concrete capturing state the
view exists with the stated relative position and is-over behaviour. -/
theorem mouse_view_characterisation_witness :
    ∃ m, Widget.mouse 1 rect0W gCurrent = some m ∧
      m.abs_xy = gCurrent.current.mouse_xy ∧
      m.rel_xy = vec2_sub gCurrent.current.mouse_xy rect0W.xy ∧
      (m.is_over = true ↔
        (rect0W.l ≤ gCurrent.current.mouse_xy.1 ∧ gCurrent.current.mouse_xy.1 ≤ rect0W.r ∧
         rect0W.b ≤ gCurrent.current.mouse_xy.2 ∧ gCurrent.current.mouse_xy.2 ≤ rect0W.t)) ∧
      m.buttons = gCurrent.current.mouse_buttons :=
  (mouse_view_characterisation 1 rect0W gCurrent).1 rfl

/-! ### Claim C2 -/

/-- Claim C2: in the clip-region compositor, for a context that already
carries a scissor: when the mapped target rectangle and the existing
scissor are disjoint (empty closed intersection) the resulting scissor
has zero width and zero height; when they do overlap the result is the
standard axis-aligned rectangle intersection, and the subtractions
producing its dimensions never underflow. -/
theorem crop_context_intersection (c : Context) (rect : Rect) (prev : Scissor)
    (hs : c.draw_state.scissor = some prev) :
    (((crop_quad c rect).x + (crop_quad c rect).w < prev.x ∨
      prev.x + prev.w < (crop_quad c rect).x ∨
      (crop_quad c rect).y + (crop_quad c rect).h < prev.y ∨
      prev.y + prev.h < (crop_quad c rect).y) →
      (crop_context c rect).draw_state.scissor =
        some ⟨(crop_quad c rect).x, (crop_quad c rect).y, 0, 0⟩) ∧
    (¬((crop_quad c rect).x + (crop_quad c rect).w < prev.x ∨
      prev.x + prev.w < (crop_quad c rect).x ∨
      (crop_quad c rect).y + (crop_quad c rect).h < prev.y ∨
      prev.y + prev.h < (crop_quad c rect).y) →
      max (crop_quad c rect).x prev.x ≤
        min ((crop_quad c rect).x + (crop_quad c rect).w) (prev.x + prev.w) ∧
      max (crop_quad c rect).y prev.y ≤
        min ((crop_quad c rect).y + (crop_quad c rect).h) (prev.y + prev.h) ∧
      (crop_context c rect).draw_state.scissor =
        some ⟨max (crop_quad c rect).x prev.x, max (crop_quad c rect).y prev.y,
          min ((crop_quad c rect).x + (crop_quad c rect).w) (prev.x + prev.w) -
            max (crop_quad c rect).x prev.x,
          min ((crop_quad c rect).y + (crop_quad c rect).h) (prev.y + prev.h) -
            max (crop_quad c rect).y prev.y⟩) := by
  have hcc : (crop_context c rect).draw_state.scissor =
      some (scissor_intersect (crop_quad c rect) prev) := by
    simp [crop_context, hs]
  constructor
  · intro hsep
    rw [hcc]
    simp only [scissor_intersect, if_pos hsep]
  · intro hns
    refine ⟨by omega, by omega, ?_⟩
    rw [hcc]
    simp only [scissor_intersect, if_neg hns, Option.some.injEq, Scissor.mk.injEq]
    refine ⟨?_, ?_, ?_, ?_⟩ <;> split_ifs <;> omega

/-- A concrete context carrying a scissor disjoint from the mapped target
rectangle. -/
def cFar : Context := ⟨(4, 4), none, ⟨some ⟨10, 10, 2, 2⟩⟩⟩

/-- Witness for claim C2: with an existing scissor far from the mapped
rectangle, the resulting scissor has zero width and height. -/
theorem crop_context_intersection_witness :
    (crop_context cFar rect0W).draw_state.scissor =
      some ⟨(crop_quad cFar rect0W).x, (crop_quad cFar rect0W).y, 0, 0⟩ := by
  apply (crop_context_intersection cFar rect0W ⟨10, 10, 2, 2⟩ rfl).1
  norm_num [crop_quad, clamped_scissor, mapped_x, mapped_y, mapped_w, mapped_h, map_range,
    ratTrunc, Context.draw_dim, Rect.xy, Rect.w, Rect.h, cFar, rect0W]
  omega

/-! ### Claim C6 -/

/-- Claim C6: in `crop_context`, when the mapped device-space top-left
coordinate is negative on an axis it is clamped to zero and the
corresponding dimension is reduced by the clamped amount; a dimension
that would go negative is clamped to zero; and the resulting unsigned
dimension never exceeds the unclamped one (no wrap into a large unsigned
value). -/
theorem crop_context_clamping (c : Context) (rect : Rect)
    (hs : c.draw_state.scissor = none) :
    (mapped_x c rect < 0 →
      (crop_quad c rect).x = 0 ∧
      ((crop_quad c rect).w : ℤ) = max 0 (mapped_w c rect + mapped_x c rect)) ∧
    (mapped_y c rect < 0 →
      (crop_quad c rect).y = 0 ∧
      ((crop_quad c rect).h : ℤ) = max 0 (mapped_h c rect + mapped_y c rect)) ∧
    (mapped_w c rect + min (mapped_x c rect) 0 < 0 → (crop_quad c rect).w = 0) ∧
    (mapped_h c rect + min (mapped_y c rect) 0 < 0 → (crop_quad c rect).h = 0) ∧
    ((crop_quad c rect).w : ℤ) ≤ max 0 (mapped_w c rect) ∧
    ((crop_quad c rect).h : ℤ) ≤ max 0 (mapped_h c rect) ∧
    (crop_context c rect).draw_state.scissor = some (crop_quad c rect) := by
  have hq : ∀ xi yi wi hi : ℤ, clamped_scissor xi yi wi hi =
      ⟨(max 0 xi).toNat, (max 0 yi).toNat,
       (max 0 (wi + if xi < 0 then xi else 0)).toNat,
       (max 0 (hi + if yi < 0 then yi else 0)).toNat⟩ := fun _ _ _ _ => rfl
  refine ⟨?_, ?_, ?_, ?_, ?_, ?_, ?_⟩
  · intro hx
    constructor <;> simp only [crop_quad, hq] <;> (try split_ifs) <;> omega
  · intro hy
    constructor <;> simp only [crop_quad, hq] <;> (try split_ifs) <;> omega
  · intro hw
    simp only [crop_quad, hq]
    split_ifs <;> omega
  · intro hh
    simp only [crop_quad, hq]
    split_ifs <;> omega
  · simp only [crop_quad, hq]
    split_ifs <;> omega
  · simp only [crop_quad, hq]
    split_ifs <;> omega
  · simp [crop_context, hs]

/-- A concrete rectangle reaching past the window's left and bottom
edges, so its mapped top-left device coordinate is negative on both
axes. -/
def rectNeg : Rect := ⟨-3, 0, -3, 0⟩

/-- Witness for claim C6: a rectangle whose mapped corner is negative has
its coordinate clamped to zero and its width reduced by the clamped
amount. -/
theorem crop_context_clamping_witness :
    mapped_x base0 rectNeg < 0 ∧
    (crop_quad base0 rectNeg).x = 0 ∧
    ((crop_quad base0 rectNeg).w : ℤ) = max 0 (mapped_w base0 rectNeg + mapped_x base0 rectNeg) := by
  have hneg : mapped_x base0 rectNeg < 0 := by
    norm_num [mapped_x, map_range, ratTrunc, Context.draw_dim, base0, rectNeg, Rect.xy, Rect.w]
  exact ⟨hneg, ((crop_context_clamping base0 rectNeg rfl).1 hneg).1,
    ((crop_context_clamping base0 rectNeg rfl).1 hneg).2⟩

/-! ### Claim C3 -/

/-- A node that crops its children: it is present in the graph and its
`crop_kids` flag is set. Only such nodes ever own a stack entry. -/
def crop_owner (g : Graph) (p : ℕ) : Prop :=
  ∃ c, g.widget p = some c ∧ c.crop_kids = true

/-- Invariant of the traversal's crop-context stack: every entry's owner
crops its children, and every entry's owner is a recursive ancestor of
every entry nearer the top of the stack. -/
def StackChain (g : Graph) (st : List (ℕ × Context)) : Prop :=
  (∀ p ∈ st.map Prod.fst, crop_owner g p) ∧
  (st.map Prod.fst).Pairwise fun a b => g.does_recursive_depth_edge_exist b a = true

/-- The pop phase only removes entries from the top of the stack. -/
theorem popWhile_suffix (g : Graph) (i : ℕ) (st : List (ℕ × Context)) :
    popWhile g i st <:+ st := by
  induction st with
  | nil => exact List.suffix_refl _
  | cons hd tl ih =>
    rcases hd with ⟨p, c⟩
    simp only [popWhile]
    split_ifs
    · exact List.suffix_refl _
    · exact ih.trans (List.suffix_cons _ _)

/-- After the pop phase, the top entry's owner — if any — is a recursive
ancestor of the visited widget. -/
theorem popWhile_top (g : Graph) (i p : ℕ) (c : Context) (st rest : List (ℕ × Context))
    (h : popWhile g i st = (p, c) :: rest) :
    g.does_recursive_depth_edge_exist p i = true := by
  induction st with
  | nil => simp [popWhile] at h
  | cons hd tl ih =>
    rcases hd with ⟨q, d⟩
    simp only [popWhile] at h
    split_ifs at h with hq
    · rw [List.cons.injEq, Prod.mk.injEq] at h
      obtain ⟨⟨rfl, rfl⟩, rfl⟩ := h
      exact hq
    · exact ih h

/-- The pop phase preserves the stack invariant. -/
theorem stackChain_popWhile (g : Graph) (i : ℕ) (st : List (ℕ × Context))
    (h : StackChain g st) : StackChain g (popWhile g i st) := by
  have hsub : List.Sublist ((popWhile g i st).map Prod.fst) (st.map Prod.fst) :=
    ((popWhile_suffix g i st).sublist).map _
  exact ⟨fun p hp => h.1 p (hsub.subset hp), h.2.sublist hsub⟩

/-- After the pop phase, with a transitive ancestor relation, every
remaining owner is a recursive ancestor of the visited widget. -/
theorem popWhile_ancestors (g : Graph) (i : ℕ) (st : List (ℕ × Context))
    (htrans : ∀ a b c, g.does_recursive_depth_edge_exist a b = true →
      g.does_recursive_depth_edge_exist b c = true →
      g.does_recursive_depth_edge_exist a c = true)
    (h : StackChain g st) :
    ∀ p ∈ (popWhile g i st).map Prod.fst, g.does_recursive_depth_edge_exist p i = true := by
  intro p hp
  have hch := stackChain_popWhile g i st h
  cases hpw : popWhile g i st with
  | nil => rw [hpw] at hp; simp at hp
  | cons hd rest =>
    rcases hd with ⟨p0, c0⟩
    have htop := popWhile_top g i p0 c0 st rest hpw
    rw [hpw] at hp hch
    simp only [List.map_cons, List.mem_cons] at hp
    rcases hp with rfl | hp
    · exact htop
    · have hpair := (List.pairwise_cons.mp hch.2).1
      exact htrans p p0 i (hpair p hp) htop

/-- The stack left by one traversal step, by the cases of `draw_step`. -/
theorem draw_step_stack (g : Graph) (window : Container) (base : Context)
    (acc : DrawAcc) (idx : ℕ) :
    (draw_step g window base acc idx).stack =
      match g.widget idx with
      | none => acc.stack
      | some container =>
        if container.crop_kids then
          (idx, crop_context (((popWhile g idx acc.stack).head?.map Prod.snd).getD base)
            container.kid_area) :: popWhile g idx acc.stack
        else popWhile g idx acc.stack := by
  unfold draw_step
  cases g.widget idx with
  | none => rfl
  | some container =>
    simp only
    split_ifs <;> rfl

/-- One traversal step preserves the stack invariant. -/
theorem draw_step_chain (g : Graph) (window : Container) (base : Context)
    (htrans : ∀ a b c, g.does_recursive_depth_edge_exist a b = true →
      g.does_recursive_depth_edge_exist b c = true →
      g.does_recursive_depth_edge_exist a c = true)
    (acc : DrawAcc) (idx : ℕ)
    (h : StackChain g acc.stack) : StackChain g (draw_step g window base acc idx).stack := by
  rw [draw_step_stack]
  cases hwid : g.widget idx with
  | none => exact h
  | some container =>
    simp only
    split_ifs with hcrop
    · constructor
      · intro p hp
        simp only [List.map_cons, List.mem_cons] at hp
        rcases hp with rfl | hp
        · exact ⟨container, hwid, hcrop⟩
        · exact (stackChain_popWhile g idx acc.stack h).1 p hp
      · simp only [List.map_cons]
        refine List.pairwise_cons.mpr ⟨?_, (stackChain_popWhile g idx acc.stack h).2⟩
        intro b hb
        exact popWhile_ancestors g idx acc.stack htrans h b hb
    · exact stackChain_popWhile g idx acc.stack h

/-- Walking any depth-order prefix preserves the stack invariant. -/
theorem foldl_chain (g : Graph) (window : Container) (base : Context)
    (htrans : ∀ a b c, g.does_recursive_depth_edge_exist a b = true →
      g.does_recursive_depth_edge_exist b c = true →
      g.does_recursive_depth_edge_exist a c = true) :
    ∀ (pre : List ℕ) (acc : DrawAcc), StackChain g acc.stack →
      StackChain g ((pre.foldl (draw_step g window base) acc).stack) := by
  intro pre
  induction pre with
  | nil => intro acc h; exact h
  | cons a tl ih =>
    intro acc h
    exact ih _ (draw_step_chain g window base htrans acc a h)

/-- Claim C3: during the draw traversal, with the recursive-depth-edge
relation transitive and irreflexive, at the point where widget `i` is
visited every entry of the clip-context stack is owned by a distinct
crop-owning recursive ancestor of `i`; hence the stack depth never
exceeds the number of crop-owning ancestors of `i` (it is bounded by the
cardinality of any finite set containing them all). -/
theorem draw_stack_ancestors (g : Graph)
    (htrans : ∀ a b c, g.does_recursive_depth_edge_exist a b = true →
      g.does_recursive_depth_edge_exist b c = true →
      g.does_recursive_depth_edge_exist a c = true)
    (hirr : ∀ a, g.does_recursive_depth_edge_exist a a = false)
    (window : Container) (_hw : g.widget 0 = some window)
    (base : Context) (pre : List ℕ) (i : ℕ) (ci : Container) (_hci : g.widget i = some ci) :
    (∀ p ∈ (stack_at g window base pre i).map Prod.fst,
       g.does_recursive_depth_edge_exist p i = true ∧ crop_owner g p) ∧
    ((stack_at g window base pre i).map Prod.fst).Nodup ∧
    ∀ s : Finset ℕ,
      (∀ p, g.does_recursive_depth_edge_exist p i = true → crop_owner g p → p ∈ s) →
      (stack_at g window base pre i).length ≤ s.card := by
  have hfold : StackChain g ((pre.foldl (draw_step g window base) ⟨[], [], []⟩).stack) :=
    foldl_chain g window base htrans pre ⟨[], [], []⟩ ⟨by simp, by simp⟩
  have hst : StackChain g (stack_at g window base pre i) :=
    stackChain_popWhile g i _ hfold
  have hanc : ∀ p ∈ (stack_at g window base pre i).map Prod.fst,
      g.does_recursive_depth_edge_exist p i = true :=
    popWhile_ancestors g i _ htrans hfold
  have hnodup : ((stack_at g window base pre i).map Prod.fst).Nodup := by
    refine hst.2.imp ?_
    intro a b hr
    intro heq
    subst heq
    rw [hirr] at hr
    exact Bool.noConfusion hr
  refine ⟨fun p hp => ⟨hanc p hp, hst.1 p hp⟩, hnodup, ?_⟩
  intro s hs
  have hsubset : ((stack_at g window base pre i).map Prod.fst).toFinset ⊆ s := by
    intro p hp
    rw [List.mem_toFinset] at hp
    exact hs p (hanc p hp) (hst.1 p hp)
  calc (stack_at g window base pre i).length
      = ((stack_at g window base pre i).map Prod.fst).length := (List.length_map _ _).symm
    _ = ((stack_at g window base pre i).map Prod.fst).toFinset.card :=
        (List.toFinset_card_of_nodup hnodup).symm
    _ ≤ s.card := Finset.card_le_card hsubset

/-- A concrete crop-owning container. -/
def contW : Container := ⟨rect0W, true, rect0W, 0⟩

/-- A concrete three-node graph in which node 0 is a recursive ancestor
of node 1 and every node crops its children. -/
def gW3 : Graph :=
  { widget := fun nn => if nn ≤ 2 then some contW else none
    does_recursive_depth_edge_exist := fun a b => a == 0 && b == 1
    cropped_area_of_widget := fun _ => some rect0W }

/-- Witness for claim C3: visiting widget 1 after the prefix `[0]`, every
stack entry is owned by a crop-owning ancestor of 1, owners are distinct,
and the depth is bounded by the size of any set of crop-owning
ancestors. -/
theorem draw_stack_ancestors_witness :
    (∀ p ∈ (stack_at gW3 contW base0 [0] 1).map Prod.fst,
       gW3.does_recursive_depth_edge_exist p 1 = true ∧ crop_owner gW3 p) ∧
    ((stack_at gW3 contW base0 [0] 1).map Prod.fst).Nodup ∧
    ∀ s : Finset ℕ,
      (∀ p, gW3.does_recursive_depth_edge_exist p 1 = true → crop_owner gW3 p → p ∈ s) →
      (stack_at gW3 contW base0 [0] 1).length ≤ s.card :=
  draw_stack_ancestors gW3
    (by
      intro a b c h1 h2
      simp only [gW3, Bool.and_eq_true, beq_iff_eq] at h1 h2 ⊢
      omega)
    (by intro a; cases a <;> rfl)
    contW rfl base0 [0] 1 contW rfl

/-! ### Claim C7 -/

/-- Truncation of an integer is the integer itself. -/
theorem ratTrunc_intCast (z : ℤ) : ratTrunc (z : ℚ) = z := by
  unfold ratTrunc
  rw [Rat.num_intCast, Rat.den_intCast]
  simp only [Nat.div_one]
  split_ifs <;> omega

/-- Truncation of a natural number cast is the number itself. -/
theorem ratTrunc_natCast (k : ℕ) : ratTrunc (k : ℚ) = k := by
  have h := ratTrunc_intCast (k : ℤ)
  rwa [Int.cast_natCast] at h

/-- Truncation of a non-negative rational is non-negative. -/
theorem ratTrunc_nonneg (q : ℚ) (h : 0 ≤ q) : 0 ≤ ratTrunc q := by
  unfold ratTrunc
  rw [if_pos (Rat.num_nonneg.mpr h)]
  exact Int.natCast_nonneg _

/-- Modelled from the spec: the inverse of the view-space-to-device-space
mapping in the degenerate case where the device draw size equals the view
size — a device scissor's origin is shifted back by half the view size
per axis and its dimensions are kept. -/
def scissor_to_view (view_size : ℚ × ℚ) (s : Scissor) : ℚ × ℚ × ℚ × ℚ :=
  ((s.x : ℚ) - view_size.1 / 2, (s.y : ℚ) - view_size.2 / 2, (s.w : ℚ), (s.h : ℚ))

/-- The pixel-rounded bounds of a rectangle on the device pixel grid
(whose origin sits at the window corner, half the view size away from the
view origin): the left and bottom edges are truncated to the pixel grid
and the dimensions are truncated to whole pixels. -/
def pixel_rounded_bounds (view_size : ℚ × ℚ) (rect : Rect) : ℚ × ℚ × ℚ × ℚ :=
  ((ratTrunc (rect.l + view_size.1 / 2) : ℚ) - view_size.1 / 2,
   (ratTrunc (rect.b + view_size.2 / 2) : ℚ) - view_size.2 / 2,
   (ratTrunc rect.w : ℚ), (ratTrunc rect.h : ℚ))

/-- Claim C7 (round-trip): when the device draw size equals the virtual
view size (an integral positive size), the context carries no scissor and
the rectangle maps into the device area (non-negative mapped corner,
non-negative dimensions), converting the rectangle through
`crop_context`'s view-to-device mapping and mapping the resulting scissor
back to view space reproduces the rectangle's pixel-rounded bounds. -/
theorem crop_round_trip (c : Context) (rect : Rect) (m n : ℕ)
    (hview : c.view_size = ((m : ℚ), (n : ℚ)))
    (hm : 0 < m) (hn : 0 < n)
    (hdraw : c.draw_dim = c.view_size)
    (hs : c.draw_state.scissor = none)
    (hx : 0 ≤ mapped_x c rect) (hy : 0 ≤ mapped_y c rect)
    (hwrect : 0 ≤ rect.w) (hhrect : 0 ≤ rect.h) :
    (crop_context c rect).draw_state.scissor = some (crop_quad c rect) ∧
    scissor_to_view c.view_size (crop_quad c rect) = pixel_rounded_bounds c.view_size rect := by
  have hm0 : (m : ℚ) ≠ 0 := Nat.cast_ne_zero.mpr hm.ne'
  have hn0 : (n : ℚ) ≠ 0 := Nat.cast_ne_zero.mpr hn.ne'
  have hmx : mapped_x c rect = ratTrunc (rect.l + (m : ℚ) / 2) := by
    simp only [mapped_x, map_range, hdraw, hview, ratTrunc_natCast]
    congr 1
    simp only [Rect.xy, Rect.w]
    field_simp
    ring
  have hmy : mapped_y c rect = ratTrunc (rect.b + (n : ℚ) / 2) := by
    simp only [mapped_y, map_range, hdraw, hview, ratTrunc_natCast]
    congr 1
    simp only [Rect.xy, Rect.h]
    field_simp
    ring
  have hmw : mapped_w c rect = ratTrunc rect.w := by
    simp only [mapped_w, hdraw, hview]
    congr 1
    rw [div_self hm0, mul_one]
  have hmh : mapped_h c rect = ratTrunc rect.h := by
    simp only [mapped_h, hdraw, hview]
    congr 1
    rw [div_self hn0, mul_one]
  have hwnn : 0 ≤ mapped_w c rect := hmw ▸ ratTrunc_nonneg _ hwrect
  have hhnn : 0 ≤ mapped_h c rect := hmh ▸ ratTrunc_nonneg _ hhrect
  have hquad : crop_quad c rect =
      ⟨(mapped_x c rect).toNat, (mapped_y c rect).toNat,
       (mapped_w c rect).toNat, (mapped_h c rect).toNat⟩ := by
    unfold crop_quad clamped_scissor
    rw [if_neg (not_lt.mpr hx), if_neg (not_lt.mpr hy)]
    simp only [Scissor.mk.injEq]
    refine ⟨by omega, by omega, by omega, by omega⟩
  have cast_nn : ∀ z : ℤ, 0 ≤ z → ((z.toNat : ℕ) : ℚ) = (z : ℚ) := fun z hz => by
    exact_mod_cast Int.toNat_of_nonneg hz
  refine ⟨by simp [crop_context, hs], ?_⟩
  rw [hquad, hview]
  simp only [scissor_to_view, pixel_rounded_bounds, Prod.mk.injEq]
  rw [hmx, hmy, hmw, hmh]
  exact ⟨by rw [cast_nn _ (hmx ▸ hx)], by rw [cast_nn _ (hmy ▸ hy)],
    by rw [cast_nn _ (hmw ▸ hwnn)], by rw [cast_nn _ (hmh ▸ hhnn)]⟩

/-- Witness for claim C7: a concrete 4×4 view with no viewport and no
scissor, and a rectangle inside the window, round-trips to its
pixel-rounded bounds. -/
theorem crop_round_trip_witness :
    (crop_context base0 rect0W).draw_state.scissor = some (crop_quad base0 rect0W) ∧
    scissor_to_view base0.view_size (crop_quad base0 rect0W) =
      pixel_rounded_bounds base0.view_size rect0W :=
  crop_round_trip base0 rect0W 4 4 (by norm_num [base0]) (by norm_num) (by norm_num)
    rfl rfl
    (by norm_num [mapped_x, map_range, ratTrunc, Context.draw_dim, base0, rect0W, Rect.xy, Rect.w])
    (by norm_num [mapped_y, map_range, ratTrunc, Context.draw_dim, base0, rect0W, Rect.xy, Rect.h])
    (by norm_num [Rect.w, rect0W]) (by norm_num [Rect.h, rect0W])

end Conrod
